import Mathlib

/-!
Verification of the YouTube transcript viewer utility (serve.py and
viewer/build.py) against its natural-language specification.

The embedding below translates the Python source into Lean:

* the state store (state.json) is a mapping from 11-character video IDs to
  records of three booleans; Python dicts are modelled as association lists
  with unique keys, dict assignment replaces the first matching entry in
  place (else appends, matching dict insertion order), and del removes the
  entry with the given key;
* JSON values produced by json.loads are modelled by JsonVal; JSON numbers
  are carried as integers (only their truthiness is ever consumed, which for
  Python numbers is being nonzero, so this loses nothing the handlers can
  observe);
* the file system seen by delete_transcript is a list of existing content
  directories, each with its list of file names in directory-scan order;
  removal failures (OSError from unlink) are modelled by an oracle
  unlinkOk telling whether removing a given file succeeds;
* pathlib glob patterns are modelled by a matcher with the semantics of
  fnmatch.translate on a single path component, case sensitive as on posix:
  star matches any run, question mark one character, bracket expressions
  support negation with an exclamation mark, literal leading close-bracket,
  and character ranges; an unterminated bracket is a literal open-bracket.
  The handlers only ever pass the pattern one path component deep (the
  video ID extracted from the URL path never contains a slash), so the
  single-component matcher is the semantics actually exercised;
* HTTP request paths are taken after urlparse, i.e. without query or
  fragment; the handlers receive the path string exactly as the source
  reads parsed.path;
* an unhandled Python exception inside a handler (e.g. TypeError from
  indexing a list with a string) produces no HTTP response and leaves the
  persisted state untouched; it is modelled by a distinguished crash result.
-/

namespace YTV

/-- JSON values as returned by json.loads. Objects are association lists
with unique keys (the json module collapses duplicate keys). Numbers are
carried as integers; the handlers only consume their truthiness. -/
inductive JsonVal where
  | null : JsonVal
  | bool (b : Bool) : JsonVal
  | num (n : Int) : JsonVal
  | str (s : String) : JsonVal
  | arr (xs : List JsonVal) : JsonVal
  | obj (kvs : List (String × JsonVal)) : JsonVal

/-- One state record: the per-video flags kept in state.json. -/
structure StateRec where
  read : Bool
  starred : Bool
  archived : Bool
deriving DecidableEq, Repr

/-- The state mapping persisted in state.json: video ID to record. -/
abbrev StateMap := List (String × StateRec)

/-- Condition of the state file on disk: missing, unreadable or not valid
JSON, or readable and parsing to a JSON value. -/
inductive StateFileCond where
  | missing : StateFileCond
  | invalid : StateFileCond
  | valid (v : JsonVal) : StateFileCond

/-- load_state from serve.py: return the parsed contents of the state file;
on a missing file, or when reading or parsing raises (the bare except),
return the empty mapping. Totality of this function is the shallow
rendering of the fact that load_state never raises. -/
def load_state : StateFileCond → JsonVal
  | .valid v => v
  | .missing => .obj []
  | .invalid => .obj []

/-- Dict lookup on the state mapping. -/
def lookupRec : StateMap → String → Option StateRec
  | [], _ => none
  | (k, v) :: t, key => if k = key then some v else lookupRec t key

/-- Dict membership test, as in: video_id in state. -/
def containsKey (st : StateMap) (key : String) : Bool :=
  (lookupRec st key).isSome

/-- Dict assignment state[key] = v: replace the entry in place if the key
is present, else append (dicts keep insertion order). -/
def setRec : StateMap → String → StateRec → StateMap
  | [], key, v => [(key, v)]
  | (k, w) :: t, key, v =>
    if k = key then (k, v) :: t else (k, w) :: setRec t key v

/-- Dict deletion del state[key]: drop the entry with the given key. -/
def eraseKey (st : StateMap) (key : String) : StateMap :=
  st.filter (fun e => decide (e.1 ≠ key))

/-- Python str.split on a single-character separator: every occurrence
splits, empty pieces are kept. The result is never empty. -/
def pySplit (sep : Char) : List Char → List (List Char)
  | [] => [[]]
  | c :: t =>
    if c = sep then [] :: pySplit sep t
    else
      match pySplit sep t with
      | [] => [[c]]
      | g :: gs => (c :: g) :: gs

/-- path.split('/')[-1]: the last path segment. -/
def lastSegment (path : String) : String :=
  ⟨(pySplit '/' path.toList).getLastD []⟩

/-- Python str.startswith. -/
def pyStartswith (s pre : String) : Bool :=
  pre.toList.isPrefixOf s.toList

/-- Python substring containment: needle in hay for strings. -/
def containsSub (needle : List Char) : List Char → Bool
  | [] => needle.isEmpty
  | c :: t => needle.isPrefixOf (c :: t) || containsSub needle t

/-- Python bool() on a JSON value. -/
def pyBool : JsonVal → Bool
  | .null => false
  | .bool b => b
  | .num n => decide (n ≠ 0)
  | .str s => decide (s ≠ "")
  | .arr xs => !xs.isEmpty
  | .obj kvs => !kvs.isEmpty

/-- Python equality between a JSON value and a string (str compares equal
only to equal strs; numbers, booleans, lists and dicts never equal a str). -/
def jsonEqStr (x : JsonVal) (key : String) : Bool :=
  match x with
  | .str s => decide (s = key)
  | _ => false

/-- Python key in updates. Dicts test keys, lists test membership of
elements, strings test substrings; on other values the in operator raises
TypeError, modelled as an error. -/
def pyContains (v : JsonVal) (key : String) : Except Unit Bool :=
  match v with
  | .obj kvs => .ok (kvs.any (fun kv => decide (kv.1 = key)))
  | .arr xs => .ok (xs.any (fun x => jsonEqStr x key))
  | .str s => .ok (containsSub key.toList s.toList)
  | _ => .error ()

/-- Python updates[key] with a string key. Works on dicts (KeyError if
absent, also an exception); on lists and strings the string subscript
raises TypeError; on the rest the subscript raises as well. -/
def pyIndexStr (v : JsonVal) (key : String) : Except Unit JsonVal :=
  match v with
  | .obj kvs =>
    match kvs.find? (fun kv => decide (kv.1 = key)) with
    | some kv => .ok kv.2
    | none => .error ()
  | _ => .error ()

/-- One iteration of the do_PATCH update loop for a single key:
if key in updates: state[video_id][key] = bool(updates[key]). -/
def applyOne (updates : JsonVal) (key : String) (setf : StateRec → Bool → StateRec)
    (r : StateRec) : Except Unit StateRec :=
  match pyContains updates key with
  | .error _ => .error ()
  | .ok b =>
    if b then
      match pyIndexStr updates key with
      | .error _ => .error ()
      | .ok v => .ok (setf r (pyBool v))
    else .ok r

/-- The do_PATCH update loop over the three recognised keys, in source
order: read, starred, archived. -/
def applyUpdates (updates : JsonVal) (r : StateRec) : Except Unit StateRec :=
  match applyOne updates "read" (fun r b => { r with read := b }) r with
  | .error e => .error e
  | .ok r1 =>
    match applyOne updates "starred" (fun r b => { r with starred := b }) r1 with
    | .error e => .error e
    | .ok r2 => applyOne updates "archived" (fun r b => { r with archived := b }) r2

/-- How the PATCH request body arrived: empty (Content-Length 0, treated
as an empty update), malformed JSON (json.loads raises JSONDecodeError),
or parsed to a JSON value. -/
inductive BodyJson where
  | empty : BodyJson
  | malformed : BodyJson
  | parsed (v : JsonVal) : BodyJson

/-- Result of a PATCH request: an HTTP reply with status, resulting
persisted state and (on 200) the echoed record, or a crash from an
unhandled exception, which sends no reply and persists nothing. -/
inductive PatchResult where
  | reply (status : Nat) (state : StateMap) (record : Option StateRec) : PatchResult
  | crash (state : StateMap) : PatchResult
deriving DecidableEq, Repr

/-- Status code of a PATCH outcome, none when the handler crashed. -/
def PatchResult.statusOpt : PatchResult → Option Nat
  | .reply s _ _ => some s
  | .crash _ => none

/-- The body of do_PATCH after validation: fetch or create the record,
apply the update loop, save and reply 200; an exception in the loop is a
crash that leaves the persisted state untouched. -/
def patchCore (st : StateMap) (video_id : String) (updates : JsonVal) : PatchResult :=
  match applyUpdates updates ((lookupRec st video_id).getD ⟨false, false, false⟩) with
  | .error _ => .crash st
  | .ok r1 => .reply 200 (setRec st video_id r1) (some r1)

/-- do_PATCH from serve.py. The path is parsed.path. Only paths under
/api/state/ are served; the video ID is the last path segment and must be
nonempty and exactly 11 characters, else 400; a body that fails JSON
parsing gives 400; an empty body acts as an empty update object. -/
def do_PATCH (st : StateMap) (path : String) (body : BodyJson) : PatchResult :=
  if pyStartswith path "/api/state/" then
    let video_id := lastSegment path
    if video_id = "" ∨ video_id.length ≠ 11 then .reply 400 st none
    else
      match body with
      | .malformed => .reply 400 st none
      | .empty => patchCore st video_id (.obj [])
      | .parsed v => patchCore st video_id v
  else .reply 404 st none

/-- Result of a GET: the /api/state route replies 200 with the full state
mapping; any other path falls through to static file serving. -/
inductive GetResult where
  | stateReply (status : Nat) (state : StateMap) : GetResult
  | static : GetResult
deriving DecidableEq, Repr

/-- do_GET from serve.py, restricted to the API route. -/
def do_GET (st : StateMap) (path : String) : GetResult :=
  if path = "/api/state" then .stateReply 200 st else .static

/-! ## Glob matching, as performed by pathlib Path.glob on one component

The patterns built by delete_transcript are matched with the semantics of
fnmatch.translate, case sensitive (posix), on a single path component. -/

/-- An item of a bracket expression: a literal character or a range. -/
inductive ClsItem where
  | single (c : Char) : ClsItem
  | range (lo hi : Char) : ClsItem
deriving DecidableEq, Repr

/-- A token of a compiled glob pattern. -/
inductive GlobTok where
  | star : GlobTok
  | qmark : GlobTok
  | lit (c : Char) : GlobTok
  | cls (neg : Bool) (items : List ClsItem) : GlobTok
deriving DecidableEq, Repr

/-- Split a character list at the first close-bracket; none if absent. -/
def splitAtRB : List Char → Option (List Char × List Char)
  | [] => none
  | ']' :: rest => some ([], rest)
  | c :: rest =>
    match splitAtRB rest with
    | some (a, b) => some (c :: a, b)
    | none => none

/-- Parse a bracket expression body (the characters following the opening
bracket): an optional leading exclamation mark negates; a close-bracket
right after it is a literal member; the expression runs to the next
close-bracket. Returns negation flag, member characters, and the rest of
the pattern; none when there is no closing bracket (the opening bracket is
then a literal, as in fnmatch). -/
def parseBracket (l : List Char) : Option (Bool × List Char × List Char) :=
  match l with
  | '!' :: ']' :: r => (splitAtRB r).map (fun p => (true, ']' :: p.1, p.2))
  | '!' :: r => (splitAtRB r).map (fun p => (true, p.1, p.2))
  | ']' :: r => (splitAtRB r).map (fun p => (false, ']' :: p.1, p.2))
  | r => (splitAtRB r).map (fun p => (false, p.1, p.2))

/-- Parse the members of a bracket expression: lo-hi ranges where a dash
sits between two characters, every other character a literal (so a
trailing dash is literal, as in fnmatch). -/
def parseClsItems : List Char → List ClsItem
  | a :: '-' :: b :: rest => .range a b :: parseClsItems rest
  | a :: rest => .single a :: parseClsItems rest
  | [] => []

/-- Membership of a character in a bracket expression; ranges compare by
code point, an empty range matches nothing. -/
def clsMatch (c : Char) : List ClsItem → Bool
  | [] => false
  | .single a :: rest => c = a || clsMatch c rest
  | .range lo hi :: rest => (decide (lo ≤ c) && decide (c ≤ hi)) || clsMatch c rest

/-- Tokenize a glob pattern. Fuel counts consumed characters; every step
consumes at least one, so the length of the input is always enough. -/
def tokenizeF : Nat → List Char → List GlobTok
  | 0, _ => []
  | _ + 1, [] => []
  | fuel + 1, '*' :: rest => .star :: tokenizeF fuel rest
  | fuel + 1, '?' :: rest => .qmark :: tokenizeF fuel rest
  | fuel + 1, '[' :: rest =>
    (match parseBracket rest with
     | some (neg, cs, after) => .cls neg (parseClsItems cs) :: tokenizeF fuel after
     | none => .lit '[' :: tokenizeF fuel rest)
  | fuel + 1, c :: rest => .lit c :: tokenizeF fuel rest

/-- Tokenize a glob pattern into tokens. -/
def tokenize (l : List Char) : List GlobTok :=
  tokenizeF l.length l

/-- Whether a single non-star token matches one character. -/
def tokMatch (t : GlobTok) (c : Char) : Bool :=
  match t with
  | .star => false
  | .qmark => true
  | .lit a => c = a
  | .cls neg items => clsMatch c items != neg

/-- All suffixes of a list, longest first (the list itself down to nil). -/
def suffixes : List Char → List (List Char)
  | [] => [[]]
  | c :: t => (c :: t) :: suffixes t

/-- Match a tokenized glob pattern against a whole component. A star may
absorb any amount of the input, rendered by trying every suffix. -/
def globMatch : List GlobTok → List Char → Bool
  | [], s => s.isEmpty
  | .star :: ps, s => (suffixes s).any (fun t => globMatch ps t)
  | tok :: ps, s =>
    match s with
    | [] => false
    | c :: t => tokMatch tok c && globMatch ps t

/-- fnmatch of a file name against a glob pattern (posix, one component). -/
def fnmatch (pat name : String) : Bool :=
  globMatch (tokenize pat.toList) name.toList

/-! ## The deletion routine delete_transcript and do_DELETE -/

/-- The file system seen by delete_transcript: the existing content
directories, each with its file names in directory-scan order. Lookup and
update address the first entry with the given directory name. -/
abbrev FS := List (String × List String)

/-- Listing of a directory, none when the directory does not exist. -/
def dirFiles : FS → String → Option (List String)
  | [], _ => none
  | (k, fsl) :: t, d => if k = d then some fsl else dirFiles t d

/-- Replace the listing of an existing directory. -/
def setDir : FS → String → List String → FS
  | [], _, _ => []
  | (k, v) :: t, d, fsl =>
    if k = d then (d, fsl) :: t else (k, v) :: setDir t d fsl

/-- The five fixed directory and glob-pattern pairs of delete_transcript. -/
def patterns (video_id : String) : List (String × String) :=
  [("summaries", "*-" ++ video_id ++ ".md"),
   ("metadata", "*-" ++ video_id ++ ".json"),
   ("transcripts", "*-" ++ video_id ++ ".txt"),
   ("transcripts", "*-" ++ video_id ++ ".srt"),
   ("audio", "*-" ++ video_id ++ ".mp3")]

/-- The inner unlink loop over the glob matches of one pattern: remove each
match from the directory listing, recording its path relative to the skill
directory; at the first failing unlink stop with the error message (files
already removed stay removed). Arguments: the unlink oracle, the directory
name, its current listing, the accumulated deleted paths, the matches. -/
def unlinkAll (unlinkOk : String → String → Bool) (d : String) :
    List String → List String → List String →
    List String × List String × Option String
  | files, acc, [] => (files, acc, none)
  | files, acc, m :: ms =>
    if unlinkOk d m then
      unlinkAll unlinkOk d (files.erase m) (acc ++ [d ++ "/" ++ m]) ms
    else (files, acc, some ("Failed to delete " ++ m))

/-- The outer loop of delete_transcript over the pattern pairs: skip
missing directories, glob each pattern against the current listing, unlink
every match, abort at the first failure. Returns the resulting file
system, the deleted paths, and the error if any. -/
def delPatterns (unlinkOk : String → String → Bool) :
    List (String × String) → FS → List String →
    FS × List String × Option String
  | [], fs, acc => (fs, acc, none)
  | (d, pat) :: rest, fs, acc =>
    match dirFiles fs d with
    | none => delPatterns unlinkOk rest fs acc
    | some files =>
      match unlinkAll unlinkOk d files acc (files.filter (fun f => fnmatch pat f)) with
      | (files1, acc1, some e) => (setDir fs d files1, acc1, some e)
      | (files1, acc1, none) => delPatterns unlinkOk rest (setDir fs d files1) acc1

/-- Outcome of delete_transcript: the success flag and message of the
returned pair, the resulting file system and persisted state, whether the
state file was read, whether it was written, and whether the viewer
rebuild was triggered. -/
structure DelResult where
  success : Bool
  message : String
  fs : FS
  state : StateMap
  stateLoaded : Bool
  stateSaved : Bool
  rebuilt : Bool
deriving DecidableEq, Repr

/-- delete_transcript from serve.py: run the deletion loops; on an unlink
failure return immediately (state untouched, no rebuild); with no match
report not found (state untouched, no rebuild); otherwise load the state,
drop the entry if present (saving only then), trigger the rebuild and
report the number of deletions. -/
def delete_transcript (unlinkOk : String → String → Bool) (fs : FS) (st : StateMap)
    (video_id : String) : DelResult :=
  match delPatterns unlinkOk (patterns video_id) fs [] with
  | (fs1, _, some e) => ⟨false, e, fs1, st, false, false, false⟩
  | (fs1, deleted, none) =>
    if deleted.isEmpty then
      ⟨false, "No files found for video ID: " ++ video_id, fs1, st, false, false, false⟩
    else if containsKey st video_id then
      ⟨true, "Deleted " ++ toString deleted.length ++ " files", fs1,
        eraseKey st video_id, true, true, true⟩
    else
      ⟨true, "Deleted " ++ toString deleted.length ++ " files", fs1, st, true, false, true⟩

/-- Outcome of a DELETE request: status code plus the effects carried over
from delete_transcript. -/
structure HttpDelete where
  status : Nat
  fs : FS
  state : StateMap
  stateLoaded : Bool
  stateSaved : Bool
  rebuilt : Bool
deriving DecidableEq, Repr

/-- do_DELETE from serve.py: only paths under /api/delete/ are served; the
video ID is the last path segment and must be nonempty and exactly 11
characters, else 400; otherwise delete_transcript runs and success maps to
200, failure to 404. -/
def do_DELETE (unlinkOk : String → String → Bool) (fs : FS) (st : StateMap)
    (path : String) : HttpDelete :=
  if pyStartswith path "/api/delete/" then
    let video_id := lastSegment path
    if video_id = "" ∨ video_id.length ≠ 11 then ⟨400, fs, st, false, false, false⟩
    else
      match delete_transcript unlinkOk fs st video_id with
      | r => ⟨if r.success then 200 else 404, r.fs, r.state, r.stateLoaded, r.stateSaved, r.rebuilt⟩
  else ⟨404, fs, st, false, false, false⟩

/-! ## The markdown summary parser of viewer/build.py

Each regular expression of the source is rendered by a direct scanner with
the same match semantics (leftmost search, greedy quantifiers with the
backtracking the pattern admits). Whitespace is the ASCII whitespace set;
the model restricts itself to ASCII text, which is all the repository
produces. -/

/-- The ASCII whitespace characters matched by a whitespace class. -/
def pyIsSpace (c : Char) : Bool :=
  c = ' ' || c = '\t' || c = '\n' || c = '\r' || c = Char.ofNat 11 || c = Char.ofNat 12

/-- Python str.strip with no argument: drop whitespace from both ends. -/
def pyStrip (l : List Char) : List Char :=
  (((l.dropWhile pyIsSpace).reverse).dropWhile pyIsSpace).reverse

/-- re.search: try the position matcher at every position left to right. -/
def reSearchO {α : Type} (f : List Char → Option α) : List Char → Option α
  | [] => f []
  | c :: t => (f (c :: t)).orElse (fun _ => reSearchO f t)

/-- A dot-plus group closed by an end anchor: at the current position take
the maximal run of non-newline characters, at least one (the run always
ends at a newline or at the end of input, where the multiline end anchor
holds). -/
def dotPlusAt (l : List Char) : Option (List Char) :=
  match l with
  | [] => none
  | c :: t =>
    if c = '\n' then none
    else some ((c :: t).takeWhile (fun x => decide (x ≠ '\n')))

/-- Backtracking for a greedy one-or-more whitespace run followed by a
dot-plus group: try consuming k whitespace characters for k from the
maximal run length down to 1. -/
def dotPlusFrom (rest : List Char) : Nat → Option (List Char)
  | 0 => none
  | k + 1 => (dotPlusAt (rest.drop (k + 1))).orElse (fun _ => dotPlusFrom rest k)

/-- Backtracking for a greedy zero-or-more whitespace run followed by a
dot-plus group: as dotPlusFrom but k may reach 0. -/
def dotPlusFrom0 (rest : List Char) : Nat → Option (List Char)
  | 0 => dotPlusAt rest
  | k + 1 => (dotPlusAt (rest.drop (k + 1))).orElse (fun _ => dotPlusFrom0 rest k)

/-- The title pattern at one anchored position: a hash, one or more
whitespace characters (greedy, may cross newlines), then the captured
dot-plus group up to a multiline end anchor. -/
def matchTitleAt : List Char → Option (List Char)
  | '#' :: rest => dotPlusFrom rest ((rest.takeWhile pyIsSpace).length)
  | _ => none

/-- Multiline search for the title pattern: anchors are the start of the
text and every position following a newline, tried left to right. -/
def findTitleGo : List Char → Option (List Char)
  | [] => none
  | c :: t =>
    if c = '\n' then (matchTitleAt t).orElse (fun _ => findTitleGo t)
    else findTitleGo t

/-- The first multiline match of the title pattern. -/
def findTitle (s : List Char) : Option (List Char) :=
  (matchTitleAt s).orElse (fun _ => findTitleGo s)

/-- The channel marker literal. -/
def channelMarker : List Char := "**Channel:**".toList

/-- The channel pattern at one position: the marker, zero or more
whitespace characters (greedy), then the captured dot-plus group. -/
def matchChannelAt (s : List Char) : Option (List Char) :=
  if channelMarker.isPrefixOf s then
    let rest := s.drop channelMarker.length
    dotPlusFrom0 rest ((rest.takeWhile pyIsSpace).length)
  else none

/-- The URL marker literal. -/
def urlMarker : List Char := "**URL:**".toList

/-- A one-or-more run of non-whitespace characters at this position. -/
def nonSpaceRun (l : List Char) : Option (List Char) :=
  match l.takeWhile (fun c => !pyIsSpace c) with
  | [] => none
  | r => some r

/-- The URL pattern at one position: the marker, a greedy whitespace run,
then the captured group: an http or https scheme and a nonempty run of
non-whitespace characters. Only the maximal whitespace skip can precede
the scheme, because a shorter skip leaves a whitespace character where the
scheme requires the letter h; and when the https alternative is a prefix
the http alternative cannot match the same position. -/
def matchUrlAt (s : List Char) : Option (List Char) :=
  if urlMarker.isPrefixOf s then
    let body := (s.drop urlMarker.length).dropWhile pyIsSpace
    if "https://".toList.isPrefixOf body then
      (nonSpaceRun (body.drop 8)).map (fun r => "https://".toList ++ r)
    else if "http://".toList.isPrefixOf body then
      (nonSpaceRun (body.drop 7)).map (fun r => "http://".toList ++ r)
    else none
  else none

/-- The character class of a video ID: ASCII letters, digits, underscore
and dash. -/
def idChar (c : Char) : Bool :=
  (decide ('a' ≤ c) && decide (c ≤ 'z')) || (decide ('A' ≤ c) && decide (c ≤ 'Z')) ||
  (decide ('0' ≤ c) && decide (c ≤ '9')) || c = '_' || c = '-'

/-- Exactly eleven video ID characters at this position. -/
def take11 (l : List Char) : Option (List Char) :=
  let g := l.take 11
  if g.length = 11 ∧ g.all idChar then some g else none

/-- The v-parameter pattern at one position: a question mark or ampersand,
the letter v, an equals sign, then the captured eleven ID characters. -/
def matchVAt (l : List Char) : Option (List Char) :=
  match l with
  | a :: b :: c :: rest =>
    if (a = '?' ∨ a = '&') ∧ b = 'v' ∧ c = '=' then take11 rest else none
  | _ => none

/-- The short-URL pattern at one position: the literal youtu.be slash then
the captured eleven ID characters. -/
def matchYtbeAt (l : List Char) : Option (List Char) :=
  if "youtu.be/".toList.isPrefixOf l then take11 (l.drop 9) else none

/-- The filename pattern at one position: a dash, eleven captured ID
characters, the literal dot-md, then the end anchor (end of the string,
or just before a lone final newline, as for a non-multiline dollar). -/
def matchFileIdAt (l : List Char) : Option (List Char) :=
  match l with
  | '-' :: rest =>
    (match take11 rest with
     | some g =>
       let tl := rest.drop 11
       if tl = ".md".toList ∨ tl = ".md\n".toList then some g else none
     | none => none)
  | _ => none

/-- extract_video_id from viewer/build.py: when a URL is present and
nonempty, search it for the v parameter, then for the youtu.be segment;
otherwise, and when both fail, search the filename for the trailing
dash-ID-dot-md suffix. -/
def extract_video_id (filename : String) (url : Option String) : Option String :=
  let fromUrl : Option (List Char) :=
    match url with
    | some u =>
      if u = "" then none
      else (reSearchO matchVAt u.toList).orElse (fun _ => reSearchO matchYtbeAt u.toList)
    | none => none
  match fromUrl with
  | some g => some ⟨g⟩
  | none => (reSearchO matchFileIdAt filename.toList).map (fun g => (⟨g⟩ : String))

/-- Index of the last occurrence of a character, as str.rfind. -/
def rfindIdx (c : Char) : List Char → Option Nat
  | [] => none
  | x :: t =>
    match rfindIdx c t with
    | some i => some (i + 1)
    | none => if x = c then some 0 else none

/-- pathlib stem of a file name: the name without its suffix, where the
suffix starts at the last dot when that dot is neither the first nor the
last character. -/
def stem (name : String) : String :=
  let l := name.toList
  match rfindIdx '.' l with
  | some i => if 0 < i ∧ i < l.length - 1 then ⟨l.take i⟩ else name
  | none => name

/-- An ASCII digit. -/
def isDigit (c : Char) : Bool := decide ('0' ≤ c) && decide (c ≤ '9')

/-- The date pattern anchored at the start of the stem: four digits, a
dash, two digits, a dash, two digits. -/
def matchDatePrefix (s : String) : Option String :=
  match s.toList with
  | a :: b :: c :: d :: '-' :: e :: f :: '-' :: g :: h :: _ =>
    if [a, b, c, d, e, f, g, h].all isDigit then
      some ⟨[a, b, c, d, '-', e, f, '-', g, h]⟩
    else none
  | _ => none

/-- A parsed summary record. -/
structure Summary where
  id : String
  title : String
  channel : String
  url : String
  date : String
  thumbnail : String
  content : String
deriving DecidableEq, Repr

/-- parse_summary from viewer/build.py. The content argument is the text
read from the file, none when read_text raises (the function then returns
none after its warning). Title falls back to the stem, channel to
Unknown, the date to the fixed fallback; a file from which no video ID
can be extracted yields none; a missing URL is synthesized from the ID. -/
def parse_summary (name : String) (content : Option String) : Option Summary :=
  match content with
  | none => none
  | some text =>
    let cl := text.toList
    let title : String :=
      match findTitle cl with
      | some g => ⟨pyStrip g⟩
      | none => stem name
    let channel : String :=
      match reSearchO matchChannelAt cl with
      | some g => ⟨pyStrip g⟩
      | none => "Unknown"
    let url0 : Option String := (reSearchO matchUrlAt cl).map (fun g => (⟨pyStrip g⟩ : String))
    let date : String := (matchDatePrefix (stem name)).getD "2025-01-01"
    match extract_video_id name url0 with
    | none => none
    | some vid =>
      some ⟨vid, title, channel, url0.getD ("https://www.youtube.com/watch?v=" ++ vid), date,
            "https://i.ytimg.com/vi/" ++ vid ++ "/maxresdefault.jpg", text⟩

/-! ## The static builder build_viewer -/

/-- A hexadecimal digit character, lower case. -/
def hexDigit (n : Nat) : Char :=
  if n < 10 then Char.ofNat (48 + n) else Char.ofNat (87 + n)

/-- JSON string escaping as json.dumps with ensure_ascii False performs
it: quote, backslash and the control characters are escaped, everything
else is kept verbatim. -/
def jsonEscChar (c : Char) : List Char :=
  if c = '"' then ['\\', '"']
  else if c = '\\' then ['\\', '\\']
  else if c = '\n' then ['\\', 'n']
  else if c = '\r' then ['\\', 'r']
  else if c = '\t' then ['\\', 't']
  else if c = Char.ofNat 8 then ['\\', 'b']
  else if c = Char.ofNat 12 then ['\\', 'f']
  else if c.toNat < 32 then
    ['\\', 'u', '0', '0', hexDigit (c.toNat / 16), hexDigit (c.toNat % 16)]
  else [c]

/-- A JSON string literal for the given text. -/
def jsonStr (s : String) : List Char :=
  '"' :: ((s.toList.map jsonEscChar).flatten ++ ['"'])

/-- json.dumps of one summary record, keys in dict-literal order, with
the default separators of dumps without indent. -/
def dumpsSummary (r : Summary) : List Char :=
  "\x7b\"id\": ".toList ++ jsonStr r.id ++
  ", \"title\": ".toList ++ jsonStr r.title ++
  ", \"channel\": ".toList ++ jsonStr r.channel ++
  ", \"url\": ".toList ++ jsonStr r.url ++
  ", \"date\": ".toList ++ jsonStr r.date ++
  ", \"thumbnail\": ".toList ++ jsonStr r.thumbnail ++
  ", \"content\": ".toList ++ jsonStr r.content ++ "\x7d".toList

/-- Join pieces with a separator. -/
def joinSep (sep : List Char) : List (List Char) → List Char
  | [] => []
  | [x] => x
  | x :: y :: t => x ++ sep ++ joinSep sep (y :: t)

/-- json.dumps of the summary list; the empty list serializes to a pair
of square brackets. -/
def dumpsSummaries (l : List Summary) : String :=
  ⟨'[' :: (joinSep ", ".toList (l.map dumpsSummary) ++ [']'])⟩

/-- Python str.replace for a nonempty needle (the builder only replaces
its fixed 20-character placeholder): every non-overlapping occurrence,
scanning left to right. Fuel is the input length, enough because every
step consumes at least one input character for a nonempty needle. -/
def pyReplaceF : Nat → List Char → List Char → List Char → List Char
  | 0, s, _, _ => s
  | _ + 1, [], _, _ => []
  | fuel + 1, c :: t, pat, rep =>
    if pat.isPrefixOf (c :: t) then rep ++ pyReplaceF fuel ((c :: t).drop pat.length) pat rep
    else c :: pyReplaceF fuel t pat rep

/-- Python str.replace on strings (nonempty needle). -/
def pyReplace (s pat rep : String) : String :=
  ⟨pyReplaceF s.toList.length s.toList pat.toList rep.toList⟩

/-- String comparison by code points, as Python compares str. -/
def charListLt : List Char → List Char → Bool
  | [], [] => false
  | [], _ :: _ => true
  | _ :: _, [] => false
  | a :: s, b :: t => if a = b then charListLt s t else decide (a < b)

/-- Insertion into a descending list for a stable descending sort: the
inserted entry goes after every strictly greater head, so entries that
came earlier and compare equal stay in front, as a stable reverse sort
keeps them. -/
def insertDescEntry (e : String × Option String) :
    List (String × Option String) → List (String × Option String)
  | [] => [e]
  | x :: t =>
    if charListLt e.1.toList x.1.toList then x :: insertDescEntry e t
    else e :: x :: t

/-- sorted with reverse True on the directory entries, by file name
(all entries share the directory prefix, so path order is name order). -/
def sortDescEntries : List (String × Option String) → List (String × Option String)
  | [] => []
  | x :: t => insertDescEntry x (sortDescEntries t)

/-- The environment build_viewer runs in: the summaries directory listing
with each file name and its readable content (none when reading raises),
or none when the directory is missing; and the template text, or none
when the template file is missing. -/
structure BuildEnv where
  summaries : Option (List (String × Option String))
  template : Option String

/-- Result of build_viewer: failure (False is returned and the output
file is not written), or success carrying the text written to the output
page. -/
inductive BuildResult where
  | failure : BuildResult
  | success (output : String) : BuildResult
deriving DecidableEq, Repr

/-- The placeholder token the template carries. -/
def placeholder : String := "/*SUMMARIES_DATA*/[]"

/-- build_viewer from viewer/build.py: fail when the summaries directory
or the template is missing; otherwise glob the markdown files, sort them
descending by name, parse each (skipping failures), serialize the records
and substitute them for the placeholder in the template. -/
def build_viewer (env : BuildEnv) : BuildResult :=
  match env.summaries with
  | none => .failure
  | some entries =>
    match env.template with
    | none => .failure
    | some tpl =>
      let mdFiles := entries.filter (fun e => fnmatch "*.md" e.1)
      let sortedFiles := sortDescEntries mdFiles
      let recs := sortedFiles.filterMap (fun e => parse_summary e.1 e.2)
      .success (pyReplace tpl placeholder (dumpsSummaries recs))

/-! ## Characterizations used to state the theorems

The following definitions describe the intended net effect of the deletion
routine; the theorems below prove the translated code equal to them. -/

/-- Drop from one directory every file matching the pattern (a directory
that does not exist is left alone). -/
def filterDir (fs : FS) (d pat : String) : FS :=
  match dirFiles fs d with
  | none => fs
  | some files => setDir fs d (files.filter (fun f => !fnmatch pat f))

/-- The file system after removing, pair by pair, every file matching the
five pattern pairs of a video ID. -/
def removeAllFiles (fs : FS) (video_id : String) : FS :=
  (patterns video_id).foldl (fun a dp => filterDir a dp.1 dp.2) fs

/-- The relative paths of the files the deletion loop removes, pair by
pair, each pattern globbed against the file system left by the earlier
pairs. -/
def collectMatches : List (String × String) → FS → List String
  | [], _ => []
  | (d, pat) :: rest, fs =>
    match dirFiles fs d with
    | none => collectMatches rest fs
    | some files =>
      ((files.filter (fun f => fnmatch pat f)).map (fun m => d ++ "/" ++ m)) ++
        collectMatches rest (filterDir fs d pat)

/-! ## Helper lemmas: the state mapping -/

theorem lookupRec_setRec_self (st : StateMap) (k : String) (v : StateRec) :
    lookupRec (setRec st k v) k = some v := by
  induction st with
  | nil => simp [setRec, lookupRec]
  | cons e t ih =>
    obtain ⟨a, b⟩ := e
    by_cases h : a = k
    · simp [setRec, h, lookupRec]
    · simp [setRec, h, lookupRec, ih]

theorem lookupRec_eraseKey_self (st : StateMap) (k : String) :
    lookupRec (eraseKey st k) k = none := by
  induction st with
  | nil => simp [eraseKey, lookupRec]
  | cons e t ih =>
    obtain ⟨a, b⟩ := e
    by_cases h : a = k
    · simpa [eraseKey, List.filter_cons, h] using ih
    · simpa [eraseKey, List.filter_cons, h, lookupRec] using ih

theorem eraseKey_of_lookup_none (st : StateMap) (k : String)
    (h : lookupRec st k = none) : eraseKey st k = st := by
  induction st with
  | nil => rfl
  | cons e t ih =>
    obtain ⟨a, b⟩ := e
    by_cases ha : a = k
    · simp [lookupRec, ha] at h
    · rw [lookupRec, if_neg ha] at h
      simp [eraseKey, List.filter_cons, ha] at ih ⊢
      exact ih h

/-! ## Helper lemmas: request routing -/

theorem valid_id_guard {vid : String} (h3 : vid.length = 11) :
    ¬(vid = "" ∨ vid.length ≠ 11) := by
  rintro (rfl | hlen)
  · exact absurd h3 (by decide)
  · exact hlen h3

theorem do_PATCH_valid (st : StateMap) (path : String) (v : JsonVal) (vid : String)
    (h1 : pyStartswith path "/api/state/" = true) (h2 : lastSegment path = vid)
    (h3 : vid.length = 11) :
    do_PATCH st path (.parsed v) = patchCore st vid v := by
  simp [do_PATCH, h1, h2, valid_id_guard h3]

theorem do_DELETE_valid (uo : String → String → Bool) (fs : FS) (st : StateMap)
    (path : String) (vid : String)
    (h1 : pyStartswith path "/api/delete/" = true) (h2 : lastSegment path = vid)
    (h3 : vid.length = 11) :
    do_DELETE uo fs st path =
      ⟨if (delete_transcript uo fs st vid).success then 200 else 404,
       (delete_transcript uo fs st vid).fs,
       (delete_transcript uo fs st vid).state,
       (delete_transcript uo fs st vid).stateLoaded,
       (delete_transcript uo fs st vid).stateSaved,
       (delete_transcript uo fs st vid).rebuilt⟩ := by
  simp [do_DELETE, h1, h2, valid_id_guard h3]

/-! ## Helper lemmas: the deletion loops -/

theorem setDir_eq_self {fs : FS} {d : String} {files : List String}
    (h : dirFiles fs d = some files) : setDir fs d files = fs := by
  induction fs with
  | nil => simp [dirFiles] at h
  | cons e t ih =>
    obtain ⟨k, v⟩ := e
    by_cases hk : k = d
    · subst hk
      simp [dirFiles] at h
      simp [setDir, h]
    · rw [dirFiles, if_neg hk] at h
      simp [setDir, hk, ih h]

theorem dirFiles_setDir_self (fs : FS) (d : String) (v : List String) :
    dirFiles (setDir fs d v) d = (dirFiles fs d).map (fun _ => v) := by
  induction fs with
  | nil => simp [setDir, dirFiles]
  | cons e t ih =>
    obtain ⟨k, w⟩ := e
    by_cases hk : k = d
    · subst hk; simp [setDir, dirFiles]
    · simp [setDir, dirFiles, hk, ih]

theorem dirFiles_setDir_ne {fs : FS} {d d2 : String} (v : List String) (hne : d2 ≠ d) :
    dirFiles (setDir fs d v) d2 = dirFiles fs d2 := by
  induction fs with
  | nil => simp [setDir]
  | cons e t ih =>
    obtain ⟨k, w⟩ := e
    by_cases hk : k = d
    · subst hk
      simp [setDir, dirFiles, Ne.symm hne, hne]
    · simp [setDir, dirFiles, hk, ih]

theorem mem_dirFiles_filterDir {fs : FS} {d0 p0 d : String} {f : String}
    (h : f ∈ (dirFiles (filterDir fs d0 p0) d).getD []) :
    f ∈ (dirFiles fs d).getD [] := by
  cases hd : dirFiles fs d0 with
  | none => simpa only [filterDir, hd] using h
  | some files =>
    simp only [filterDir, hd] at h
    by_cases hdd : d = d0
    · subst hdd
      rw [dirFiles_setDir_self, hd] at h
      simp only [Option.map_some', Option.getD_some] at h
      rw [hd]
      simp only [Option.getD_some]
      exact (List.mem_filter.mp h).1
    · rwa [dirFiles_setDir_ne _ hdd] at h

theorem filterDir_eq_self {fs : FS} {d p : String}
    (h : ∀ f ∈ (dirFiles fs d).getD [], fnmatch p f = false) :
    filterDir fs d p = fs := by
  cases hd : dirFiles fs d with
  | none => simp [filterDir, hd]
  | some files =>
    have hfilter : files.filter (fun f => !fnmatch p f) = files := by
      apply List.filter_eq_self.mpr
      intro a ha
      have := h a (by rw [hd]; simpa using ha)
      simp [this]
    simp only [filterDir, hd, hfilter]
    exact setDir_eq_self hd

theorem unlinkAll_true (d : String) : ∀ (ms files acc : List String),
    unlinkAll (fun _ _ => true) d files acc ms =
      (ms.foldl (fun l m => l.erase m) files,
       acc ++ ms.map (fun m => d ++ "/" ++ m), none) := by
  intro ms
  induction ms with
  | nil => intro files acc; simp [unlinkAll]
  | cons m t ih =>
    intro files acc
    simp [unlinkAll, ih, List.foldl_cons]

theorem foldl_erase_cons_of_ne : ∀ (ms l : List String) (x : String),
    (∀ m ∈ ms, m ≠ x) →
    ms.foldl (fun l m => l.erase m) (x :: l) = x :: ms.foldl (fun l m => l.erase m) l := by
  intro ms
  induction ms with
  | nil => simp
  | cons m t ih =>
    intro l x h
    have hmx : m ≠ x := h m (by simp)
    simp only [List.foldl_cons]
    rw [List.erase_cons_tail (by simpa using Ne.symm hmx)]
    exact ih (l.erase m) x (fun m2 hm2 => h m2 (by simp [hm2]))

theorem foldl_erase_filter (p : String → Bool) : ∀ files : List String,
    (files.filter p).foldl (fun l m => l.erase m) files = files.filter (fun f => !p f) := by
  intro files
  induction files with
  | nil => simp
  | cons x t ih =>
    by_cases hx : p x
    · simp only [List.filter_cons, hx, if_pos, List.foldl_cons, List.erase_cons_head]
      simpa [hx] using ih
    · have hmem : ∀ m ∈ t.filter p, m ≠ x := by
        intro m hm heq
        subst heq
        have := List.of_mem_filter hm
        simp [hx] at this
      simp only [List.filter_cons, hx, if_neg, Bool.false_eq_true, not_false_iff]
      rw [foldl_erase_cons_of_ne _ _ _ hmem, ih]
      simp [hx]

theorem delPatterns_true : ∀ (pats : List (String × String)) (fs : FS) (acc : List String),
    delPatterns (fun _ _ => true) pats fs acc =
      (pats.foldl (fun a dp => filterDir a dp.1 dp.2) fs,
       acc ++ collectMatches pats fs, none) := by
  intro pats
  induction pats with
  | nil => intro fs acc; simp [delPatterns, collectMatches]
  | cons dp rest ih =>
    intro fs acc
    obtain ⟨d, pat⟩ := dp
    cases hd : dirFiles fs d with
    | none =>
      have hfd : filterDir fs d pat = fs := by simp [filterDir, hd]
      simp [delPatterns, hd, ih, collectMatches, hfd]
    | some files =>
      have hfd : filterDir fs d pat = setDir fs d (files.filter (fun f => !fnmatch pat f)) := by
        simp [filterDir, hd]
      simp only [delPatterns, hd, unlinkAll_true, foldl_erase_filter, ih, collectMatches,
        List.foldl_cons, hfd]
      simp [List.append_assoc]

theorem collectMatches_nil_of_noMatch :
    ∀ (pats : List (String × String)) (fs : FS),
    (∀ dp ∈ pats, ∀ f ∈ (dirFiles fs dp.1).getD [], fnmatch dp.2 f = false) →
    collectMatches pats fs = [] := by
  intro pats
  induction pats with
  | nil => intro fs _; rfl
  | cons dp rest ih =>
    intro fs h
    obtain ⟨d, pat⟩ := dp
    have hhead : ∀ f ∈ (dirFiles fs d).getD [], fnmatch pat f = false :=
      h (d, pat) (by simp)
    cases hd : dirFiles fs d with
    | none =>
      simp only [collectMatches, hd]
      exact ih fs (fun dp2 hdp2 => h dp2 (by simp [hdp2]))
    | some files =>
      have hfe : files.filter (fun f => fnmatch pat f) = [] := by
        apply List.filter_eq_nil_iff.mpr
        intro a ha
        have := hhead a (by rw [hd]; simpa using ha)
        simp [this]
      have hfd : filterDir fs d pat = fs := filterDir_eq_self hhead
      simp only [collectMatches, hd, hfe, hfd, List.map_nil, List.nil_append]
      exact ih fs (fun dp2 hdp2 => h dp2 (by simp [hdp2]))

theorem collectMatches_ne_nil :
    ∀ (pats : List (String × String)) (fs : FS) (d0 p0 : String) (f : String),
    (d0, p0) ∈ pats → f ∈ (dirFiles fs d0).getD [] → fnmatch p0 f = true →
    collectMatches pats fs ≠ [] := by
  intro pats
  induction pats with
  | nil => intro fs d0 p0 f h _ _; simp at h
  | cons dp1 rest ih =>
    intro fs d0 p0 f hmem hf hmatch
    obtain ⟨d1, p1⟩ := dp1
    rcases List.mem_cons.mp hmem with heq | htail
    · cases heq
      cases hd : dirFiles fs d0 with
      | none => rw [hd] at hf; simp at hf
      | some files =>
        rw [hd] at hf
        simp only [Option.getD_some] at hf
        simp only [collectMatches, hd]
        have hin : f ∈ files.filter (fun g => fnmatch p0 g) := List.mem_filter.mpr ⟨hf, hmatch⟩
        intro habs
        rcases List.append_eq_nil.mp habs with ⟨hmap, _⟩
        rw [List.map_eq_nil_iff] at hmap
        rw [hmap] at hin
        simp at hin
    · cases hd : dirFiles fs d1 with
      | none =>
        simp only [collectMatches, hd]
        exact ih fs d0 p0 f htail hf hmatch
      | some files =>
        simp only [collectMatches, hd]
        cases hfe : files.filter (fun g => fnmatch p1 g) with
        | nil =>
          have hfd : filterDir fs d1 p1 = fs := by
            apply filterDir_eq_self
            intro g hg
            rw [hd] at hg
            have := List.filter_eq_nil_iff.mp hfe g (by simpa using hg)
            simpa using this
          rw [hfd]
          simpa using ih fs d0 p0 f htail hf hmatch
        | cons m ms =>
          simp

theorem mem_dirFiles_foldl_filterDir :
    ∀ (pats : List (String × String)) (fs : FS) (d : String) (f : String),
    f ∈ (dirFiles (pats.foldl (fun a dp => filterDir a dp.1 dp.2) fs) d).getD [] →
    f ∈ (dirFiles fs d).getD [] := by
  intro pats
  induction pats with
  | nil => intro fs d f h; exact h
  | cons dp rest ih =>
    intro fs d f h
    rw [List.foldl_cons] at h
    exact mem_dirFiles_filterDir (ih _ d f h)

theorem dirFiles_filterDir_self (fs : FS) (d p : String) :
    dirFiles (filterDir fs d p) d =
      (dirFiles fs d).map (fun files => files.filter (fun f => !fnmatch p f)) := by
  cases hd : dirFiles fs d with
  | none => simp [filterDir, hd]
  | some files => simp [filterDir, hd, dirFiles_setDir_self]

theorem noMatch_after_removeAll {pats : List (String × String)} {fs : FS}
    {dp : String × String} (hmem : dp ∈ pats) :
    ∀ f ∈ (dirFiles (pats.foldl (fun a dp2 => filterDir a dp2.1 dp2.2) fs) dp.1).getD [],
      fnmatch dp.2 f = false := by
  intro f hf
  obtain ⟨l1, l2, rfl⟩ := List.append_of_mem hmem
  rw [List.foldl_append, List.foldl_cons] at hf
  have hf2 := mem_dirFiles_foldl_filterDir l2 _ dp.1 f hf
  rw [dirFiles_filterDir_self] at hf2
  cases hd : dirFiles (l1.foldl (fun a dp2 => filterDir a dp2.1 dp2.2) fs) dp.1 with
  | none =>
    rw [hd] at hf2
    simp at hf2
  | some files =>
    rw [hd] at hf2
    simp only [Option.map_some', Option.getD_some] at hf2
    have := (List.mem_filter.mp hf2).2
    simpa using this

/-! ## Helper lemmas: the URL scanner and the update loop -/

theorem matchUrlAt_some_marker {s g : List Char} (h : matchUrlAt s = some g) :
    urlMarker.isPrefixOf s = true := by
  by_cases hp : urlMarker.isPrefixOf s
  · exact hp
  · simp [matchUrlAt, hp] at h

theorem reSearchO_url_none {cl : List Char} (h : containsSub urlMarker cl = false) :
    reSearchO matchUrlAt cl = none := by
  induction cl with
  | nil => rfl
  | cons c t ih =>
    rw [containsSub] at h
    rw [Bool.or_eq_false_iff] at h
    have hm : matchUrlAt (c :: t) = none := by
      cases hm2 : matchUrlAt (c :: t) with
      | none => rfl
      | some g => rw [matchUrlAt_some_marker hm2] at h; simp at h
    rw [reSearchO, hm]
    simpa [Option.orElse] using ih h.2

theorem applyUpdates_obj_no_keys {kvs : List (String × JsonVal)} (r : StateRec)
    (hk : ∀ kv ∈ kvs, kv.1 ≠ "read" ∧ kv.1 ≠ "starred" ∧ kv.1 ≠ "archived") :
    applyUpdates (.obj kvs) r = .ok r := by
  have h1 : (kvs.any fun kv => decide (kv.1 = "read")) = false := by
    simp only [List.any_eq_false, decide_eq_true_eq]
    exact fun kv hkv => (hk kv hkv).1
  have h2 : (kvs.any fun kv => decide (kv.1 = "starred")) = false := by
    simp only [List.any_eq_false, decide_eq_true_eq]
    exact fun kv hkv => (hk kv hkv).2.1
  have h3 : (kvs.any fun kv => decide (kv.1 = "archived")) = false := by
    simp only [List.any_eq_false, decide_eq_true_eq]
    exact fun kv hkv => (hk kv hkv).2.2
  simp [applyUpdates, applyOne, pyContains, h1, h2, h3]

theorem applyUpdates_arr_no_keys {xs : List JsonVal} (r : StateRec)
    (hx : ∀ x ∈ xs, jsonEqStr x "read" = false ∧ jsonEqStr x "starred" = false ∧
      jsonEqStr x "archived" = false) :
    applyUpdates (.arr xs) r = .ok r := by
  have h1 : (xs.any fun x => jsonEqStr x "read") = false := by
    simp only [List.any_eq_false]
    intro x hxm
    simp [(hx x hxm).1]
  have h2 : (xs.any fun x => jsonEqStr x "starred") = false := by
    simp only [List.any_eq_false]
    intro x hxm
    simp [(hx x hxm).2.1]
  have h3 : (xs.any fun x => jsonEqStr x "archived") = false := by
    simp only [List.any_eq_false]
    intro x hxm
    simp [(hx x hxm).2.2]
  simp [applyUpdates, applyOne, pyContains, h1, h2, h3]

theorem parse_summary_id_of_url (name content : String) (u : List Char)
    (h : reSearchO matchUrlAt content.toList = some u) (vid : String)
    (hv : extract_video_id name (some (⟨pyStrip u⟩ : String)) = some vid) :
    (parse_summary name (some content)).map Summary.id = some vid := by
  simp only [parse_summary, h, Option.map_some']
  rw [hv]
  rfl

theorem parse_summary_of_no_url (name content : String)
    (h : reSearchO matchUrlAt content.toList = none) (vid : String)
    (hv : extract_video_id name none = some vid) :
    (parse_summary name (some content)).map (fun s => (s.id, s.url)) =
      some (vid, "https://www.youtube.com/watch?v=" ++ vid) := by
  simp only [parse_summary, h, Option.map_none']
  rw [hv]
  rfl

/-! ## The claims -/

/-- C1: for every 11-character video ID with at least one file matching the
five fixed directory and glob-pattern pairs and no removal error, DELETE on
/api/delete/ with that ID removes all matching files (the resulting file
system is exactly the original with every match filtered out and nothing
else touched, and afterwards no file matching any pair remains), removes
the ID entry from the state store (saving exactly when it was present) and
responds 200; an immediately repeated DELETE of the same ID responds 404. -/
theorem c1_delete_removes_all (fs : FS) (st : StateMap) (path vid : String)
    (h1 : pyStartswith path "/api/delete/" = true) (h2 : lastSegment path = vid)
    (h3 : vid.length = 11)
    (hmatch : ∃ dp ∈ patterns vid, ∃ f ∈ (dirFiles fs dp.1).getD [], fnmatch dp.2 f = true) :
    (do_DELETE (fun _ _ => true) fs st path).status = 200 ∧
    (do_DELETE (fun _ _ => true) fs st path).fs = removeAllFiles fs vid ∧
    (∀ dp ∈ patterns vid, ∀ f ∈ (dirFiles (removeAllFiles fs vid) dp.1).getD [],
      fnmatch dp.2 f = false) ∧
    (do_DELETE (fun _ _ => true) fs st path).state = eraseKey st vid ∧
    lookupRec (do_DELETE (fun _ _ => true) fs st path).state vid = none ∧
    (do_DELETE (fun _ _ => true) fs st path).stateSaved = containsKey st vid ∧
    (do_DELETE (fun _ _ => true) (removeAllFiles fs vid) (eraseKey st vid) path).status = 404 := by
  obtain ⟨dp, hdp, f, hfmem, hfmatch⟩ := hmatch
  have hne : collectMatches (patterns vid) fs ≠ [] :=
    collectMatches_ne_nil (patterns vid) fs dp.1 dp.2 f (by simpa using hdp) hfmem hfmatch
  have hempty : (collectMatches (patterns vid) fs).isEmpty = false := by
    cases hcoll : collectMatches (patterns vid) fs with
    | nil => exact absurd hcoll hne
    | cons m ms => rfl
  have hdel : delete_transcript (fun _ _ => true) fs st vid =
      ⟨true, "Deleted " ++ toString (collectMatches (patterns vid) fs).length ++ " files",
       removeAllFiles fs vid,
       if containsKey st vid then eraseKey st vid else st,
       true, containsKey st vid, true⟩ := by
    simp only [delete_transcript, delPatterns_true, List.nil_append, hempty,
      Bool.false_eq_true, if_false, removeAllFiles]
    by_cases hc : containsKey st vid
    · simp [hc]
    · simp [hc]
  have hstate : (if containsKey st vid then eraseKey st vid else st) = eraseKey st vid := by
    by_cases hc : containsKey st vid
    · simp [hc]
    · rw [if_neg hc]
      have : lookupRec st vid = none := by
        rw [containsKey] at hc
        exact Option.not_isSome_iff_eq_none.mp (by simpa using hc)
      exact (eraseKey_of_lookup_none st vid this).symm
  have hvalid := do_DELETE_valid (fun _ _ => true) fs st path vid h1 h2 h3
  have hnomatch : ∀ dp2 ∈ patterns vid,
      ∀ g ∈ (dirFiles (removeAllFiles fs vid) dp2.1).getD [], fnmatch dp2.2 g = false := by
    intro dp2 hdp2 g hg
    exact noMatch_after_removeAll hdp2 g (by simpa [removeAllFiles] using hg)
  refine ⟨?_, ?_, hnomatch, ?_, ?_, ?_, ?_⟩
  · rw [hvalid]; simp [hdel]
  · rw [hvalid]; simp [hdel]
  · rw [hvalid]; simp [hdel, hstate]
  · rw [hvalid]; simp [hdel, hstate, lookupRec_eraseKey_self]
  · rw [hvalid]; simp [hdel]
  · have hcoll2 : collectMatches (patterns vid) (removeAllFiles fs vid) = [] :=
      collectMatches_nil_of_noMatch _ _ hnomatch
    have hdel2 : (delete_transcript (fun _ _ => true) (removeAllFiles fs vid)
        (eraseKey st vid) vid).success = false := by
      simp [delete_transcript, delPatterns_true, hcoll2]
    rw [do_DELETE_valid (fun _ _ => true) (removeAllFiles fs vid) (eraseKey st vid)
      path vid h1 h2 h3]
    simp [hdel2]

/-- C1 witness: a concrete file system with one matching file, a state
entry for the ID; the DELETE responds 200, empties the state, and the
repeated DELETE responds 404. -/
theorem c1_witness :
    (do_DELETE (fun _ _ => true) [("summaries", ["a-abcdefghijk.md"])]
      [("abcdefghijk", ⟨true, false, false⟩)] "/api/delete/abcdefghijk").status = 200 ∧
    (do_DELETE (fun _ _ => true) [("summaries", ["a-abcdefghijk.md"])]
      [("abcdefghijk", ⟨true, false, false⟩)] "/api/delete/abcdefghijk").state = [] ∧
    (do_DELETE (fun _ _ => true)
      (removeAllFiles [("summaries", ["a-abcdefghijk.md"])] "abcdefghijk")
      (eraseKey [("abcdefghijk", ⟨true, false, false⟩)] "abcdefghijk")
      "/api/delete/abcdefghijk").status = 404 := by
  have h := c1_delete_removes_all [("summaries", ["a-abcdefghijk.md"])]
    [("abcdefghijk", ⟨true, false, false⟩)] "/api/delete/abcdefghijk" "abcdefghijk"
    (by decide) (by decide) (by decide)
    ⟨("summaries", "*-abcdefghijk.md"), by decide, "a-abcdefghijk.md", by decide, by decide⟩
  refine ⟨h.1, ?_, h.2.2.2.2.2.2⟩
  rw [h.2.2.2.1]
  decide

/-- C2: a PATCH of starred true to an 11-character ID absent from the
state store replies 200 with the record, and a subsequent GET of
/api/state returns the mapping, which now carries that ID with starred
true, read false, archived false. -/
theorem c2_patch_fresh_starred (st : StateMap) (path vid : String)
    (h1 : pyStartswith path "/api/state/" = true) (h2 : lastSegment path = vid)
    (h3 : vid.length = 11) (hfresh : lookupRec st vid = none) :
    do_PATCH st path (.parsed (.obj [("starred", .bool true)])) =
      .reply 200 (setRec st vid ⟨false, true, false⟩) (some ⟨false, true, false⟩) ∧
    do_GET (setRec st vid ⟨false, true, false⟩) "/api/state" =
      .stateReply 200 (setRec st vid ⟨false, true, false⟩) ∧
    lookupRec (setRec st vid ⟨false, true, false⟩) vid = some ⟨false, true, false⟩ := by
  refine ⟨?_, by simp [do_GET], lookupRec_setRec_self st vid _⟩
  rw [do_PATCH_valid st path _ vid h1 h2 h3]
  unfold patchCore
  rw [hfresh]
  simp only [Option.getD_none]
  have happ : applyUpdates (.obj [("starred", .bool true)]) ⟨false, false, false⟩ =
      .ok ⟨false, true, false⟩ := by rfl
  rw [happ]

/-- C2 witness: the PATCH applied to the empty store at a concrete ID. -/
theorem c2_witness :
    do_PATCH [] "/api/state/abcdefghijk" (.parsed (.obj [("starred", .bool true)])) =
      .reply 200 (setRec [] "abcdefghijk" ⟨false, true, false⟩) (some ⟨false, true, false⟩) ∧
    do_GET (setRec [] "abcdefghijk" ⟨false, true, false⟩) "/api/state" =
      .stateReply 200 (setRec [] "abcdefghijk" ⟨false, true, false⟩) ∧
    lookupRec (setRec [] "abcdefghijk" ⟨false, true, false⟩) "abcdefghijk" =
      some ⟨false, true, false⟩ :=
  c2_patch_fresh_starred [] "/api/state/abcdefghijk" "abcdefghijk" (by decide) (by decide)
    (by decide) (by decide)

/-- C3: a PATCH or DELETE whose id path segment is not exactly 11
characters long replies 400 with the state store, and for DELETE the file
system, untouched, the state file neither loaded nor saved and no rebuild
triggered. -/
theorem c3_invalid_id_rejected :
    (∀ (st : StateMap) (path : String) (body : BodyJson),
      pyStartswith path "/api/state/" = true → (lastSegment path).length ≠ 11 →
      do_PATCH st path body = .reply 400 st none) ∧
    (∀ (uo : String → String → Bool) (fs : FS) (st : StateMap) (path : String),
      pyStartswith path "/api/delete/" = true → (lastSegment path).length ≠ 11 →
      do_DELETE uo fs st path = ⟨400, fs, st, false, false, false⟩) := by
  constructor
  · intro st path body hstart hlen
    simp [do_PATCH, hstart, hlen]
  · intro uo fs st path hstart hlen
    simp [do_DELETE, hstart, hlen]

/-- C3 witness: a five-character and a two-character segment. -/
theorem c3_witness :
    do_PATCH [] "/api/state/short" .empty = .reply 400 [] none ∧
    do_DELETE (fun _ _ => true) [] [] "/api/delete/xy" = ⟨400, [], [], false, false, false⟩ :=
  ⟨c3_invalid_id_rejected.1 [] "/api/state/short" .empty (by decide) (by decide),
   c3_invalid_id_rejected.2 (fun _ _ => true) [] [] "/api/delete/xy" (by decide) (by decide)⟩

/-- C4 counterexample: the claim quantifies over every file whose content
contains the line with the youtu.be URL, but the parser takes the first
URL marker match; a content whose first URL line names another host makes
extraction fail (host not a youtu.be link, filename without ID suffix),
so parsing yields nothing rather than the claimed ID, although the
youtu.be line is present verbatim. -/
theorem c4_counterexample :
    containsSub "**URL:** https://youtu.be/abcdefgh123".toList
        ("**URL:** http://aa\n**URL:** https://youtu.be/abcdefgh123".toList) = true ∧
    parse_summary "x.md"
        (some "**URL:** http://aa\n**URL:** https://youtu.be/abcdefgh123") = none := by
  constructor
  · decide
  · decide

/-- C4 amended: for every markdown file whose FIRST URL-marker match is
the youtu.be link, parsing yields video ID abcdefgh123 regardless of the
filename; and for every file named 2025-01-01-abcdefgh123.md whose
content has no URL marker at all, parsing takes the same ID from the
filename and synthesizes the canonical watch URL. -/
theorem c4_amended_parse_ids :
    (∀ (name content : String),
      reSearchO matchUrlAt content.toList = some "https://youtu.be/abcdefgh123".toList →
      (parse_summary name (some content)).map Summary.id = some "abcdefgh123") ∧
    (∀ content : String, containsSub urlMarker content.toList = false →
      (parse_summary "2025-01-01-abcdefgh123.md" (some content)).map (fun s => (s.id, s.url)) =
        some ("abcdefgh123", "https://www.youtube.com/watch?v=abcdefgh123")) := by
  constructor
  · intro name content h
    exact parse_summary_id_of_url name content _ h "abcdefgh123" rfl
  · intro content h
    have hu : reSearchO matchUrlAt content.toList = none := reSearchO_url_none h
    rw [parse_summary_of_no_url "2025-01-01-abcdefgh123.md" content hu "abcdefgh123" rfl]
    rfl

/-- C4 witness: one file carrying only the youtu.be URL line, one file
named for the ID with no marker in its content. -/
theorem c4_witness :
    (parse_summary "foo.md" (some "**URL:** https://youtu.be/abcdefgh123")).map Summary.id =
      some "abcdefgh123" ∧
    (parse_summary "2025-01-01-abcdefgh123.md" (some "no markers here")).map
        (fun s => (s.id, s.url)) =
      some ("abcdefgh123", "https://www.youtube.com/watch?v=abcdefgh123") :=
  ⟨c4_amended_parse_ids.1 "foo.md" "**URL:** https://youtu.be/abcdefgh123" (by decide),
   c4_amended_parse_ids.2 "no markers here" (by decide)⟩

/-- C5: a PATCH whose JSON object body carries none of the keys read,
starred, archived replies 200 with the prior record (the one already
stored, or the all-false default, which is then persisted). -/
theorem c5_patch_frame (st : StateMap) (path vid : String)
    (kvs : List (String × JsonVal))
    (h1 : pyStartswith path "/api/state/" = true) (h2 : lastSegment path = vid)
    (h3 : vid.length = 11)
    (hk : ∀ kv ∈ kvs, kv.1 ≠ "read" ∧ kv.1 ≠ "starred" ∧ kv.1 ≠ "archived") :
    do_PATCH st path (.parsed (.obj kvs)) =
      .reply 200 (setRec st vid ((lookupRec st vid).getD ⟨false, false, false⟩))
        (some ((lookupRec st vid).getD ⟨false, false, false⟩)) := by
  rw [do_PATCH_valid st path _ vid h1 h2 h3]
  unfold patchCore
  rw [applyUpdates_obj_no_keys _ hk]

/-- C5 witness: a body with only an unrecognised key, on an empty store
and on a store already carrying the record. -/
theorem c5_witness :
    do_PATCH [] "/api/state/abcdefghijk" (.parsed (.obj [("other", .bool true)])) =
      .reply 200 [("abcdefghijk", ⟨false, false, false⟩)] (some ⟨false, false, false⟩) ∧
    do_PATCH [("abcdefghijk", ⟨true, false, true⟩)] "/api/state/abcdefghijk"
        (.parsed (.obj [("other", .bool true)])) =
      .reply 200 [("abcdefghijk", ⟨true, false, true⟩)] (some ⟨true, false, true⟩) :=
  ⟨c5_patch_frame [] "/api/state/abcdefghijk" "abcdefghijk" [("other", .bool true)]
    (by decide) (by decide) (by decide) (by decide),
   c5_patch_frame [("abcdefghijk", ⟨true, false, true⟩)] "/api/state/abcdefghijk"
    "abcdefghijk" [("other", .bool true)] (by decide) (by decide) (by decide) (by decide)⟩

/-- C6: load_state returns the parsed value when the state file exists
and parses, and the empty mapping when the file is missing or fails to
parse; being a total function it never raises. -/
theorem c6_load_state_contract :
    (∀ v : JsonVal, load_state (.valid v) = v) ∧
    load_state .missing = .obj [] ∧ load_state .invalid = .obj [] :=
  ⟨fun _ => rfl, rfl, rfl⟩

/-- C7: building from an existing empty summaries directory with the
template present succeeds and the output is the template with the
placeholder replaced by the empty JSON array; a missing summaries
directory or a missing template gives failure, with no output written. -/
theorem c7_build_viewer_edges :
    (∀ tpl : String, build_viewer ⟨some [], some tpl⟩ =
      .success (pyReplace tpl placeholder "[]")) ∧
    (∀ t : Option String, build_viewer ⟨none, t⟩ = .failure) ∧
    (∀ entries, build_viewer ⟨some entries, none⟩ = .failure) := by
  refine ⟨?_, fun t => rfl, fun entries => rfl⟩
  intro tpl
  have hd : dumpsSummaries [] = "[]" := by decide
  show BuildResult.success (pyReplace tpl placeholder (dumpsSummaries [])) = _
  rw [hd]

/-- C8: when an unlink fails during the deletion batch, delete_transcript
reports failure at once: the state file is neither loaded nor saved, the
persisted state (so in particular the ID entry) is untouched, and no
viewer rebuild is triggered. -/
theorem c8_unlink_failure_aborts (uo : String → String → Bool) (fs : FS) (st : StateMap)
    (vid : String) (e : String)
    (herr : (delPatterns uo (patterns vid) fs []).2.2 = some e) :
    (delete_transcript uo fs st vid).success = false ∧
    (delete_transcript uo fs st vid).state = st ∧
    (delete_transcript uo fs st vid).stateLoaded = false ∧
    (delete_transcript uo fs st vid).stateSaved = false ∧
    (delete_transcript uo fs st vid).rebuilt = false ∧
    lookupRec (delete_transcript uo fs st vid).state vid = lookupRec st vid := by
  rcases hdp : delPatterns uo (patterns vid) fs [] with ⟨fs1, deleted, err⟩
  rw [hdp] at herr
  simp only at herr
  subst herr
  simp [delete_transcript, hdp]

/-- C8 witness: an oracle failing every unlink, one matching file; the
state entry survives and nothing is rebuilt. -/
theorem c8_witness :
    (delete_transcript (fun _ _ => false) [("summaries", ["a-abcdefghijk.md"])]
      [("abcdefghijk", ⟨true, false, false⟩)] "abcdefghijk").success = false ∧
    (delete_transcript (fun _ _ => false) [("summaries", ["a-abcdefghijk.md"])]
      [("abcdefghijk", ⟨true, false, false⟩)] "abcdefghijk").state =
      [("abcdefghijk", ⟨true, false, false⟩)] ∧
    (delete_transcript (fun _ _ => false) [("summaries", ["a-abcdefghijk.md"])]
      [("abcdefghijk", ⟨true, false, false⟩)] "abcdefghijk").rebuilt = false := by
  have h := c8_unlink_failure_aborts (fun _ _ => false) [("summaries", ["a-abcdefghijk.md"])]
    [("abcdefghijk", ⟨true, false, false⟩)] "abcdefghijk"
    "Failed to delete a-abcdefghijk.md" (by decide)
  exact ⟨h.1, h.2.1, h.2.2.2.2.1⟩

/-- C9: the only validation PATCH and DELETE apply to the id segment is
its length being 11, so any such segment is accepted (never a 400); and
for the 11-character ID with a star the deletion routine removes a file
of another video, whose name does not end in the dash-ID suffix. -/
theorem c9_glob_metacharacters :
    (∀ (st : StateMap) (path : String) (v : JsonVal) (vid : String),
      pyStartswith path "/api/state/" = true → lastSegment path = vid → vid.length = 11 →
      (do_PATCH st path (.parsed v)).statusOpt ≠ some 400) ∧
    (∀ (uo : String → String → Bool) (fs : FS) (st : StateMap) (path vid : String),
      pyStartswith path "/api/delete/" = true → lastSegment path = vid → vid.length = 11 →
      (do_DELETE uo fs st path).status ≠ 400) ∧
    ("abcdefghij*".length = 11 ∧
     (delete_transcript (fun _ _ => true) [("summaries", ["2025-01-01-abcdefghijXY.md"])] []
        "abcdefghij*").success = true ∧
     (delete_transcript (fun _ _ => true) [("summaries", ["2025-01-01-abcdefghijXY.md"])] []
        "abcdefghij*").fs = [("summaries", [])] ∧
     "-abcdefghij*.md".toList.isSuffixOf "2025-01-01-abcdefghijXY.md".toList = false) := by
  refine ⟨?_, ?_, by decide⟩
  · intro st path v vid hstart hseg hlen
    rw [do_PATCH_valid st path v vid hstart hseg hlen]
    unfold patchCore
    cases applyUpdates v ((lookupRec st vid).getD ⟨false, false, false⟩) with
    | error e => simp [PatchResult.statusOpt]
    | ok r => simp [PatchResult.statusOpt]
  · intro uo fs st path vid hstart hseg hlen
    rw [do_DELETE_valid uo fs st path vid hstart hseg hlen]
    cases (delete_transcript uo fs st vid).success with
    | false => simp
    | true => simp

/-- C9 witness: a segment with a star passes both handlers without 400. -/
theorem c9_witness :
    (do_PATCH [] "/api/state/ab*defghijk" (.parsed (.obj []))).statusOpt ≠ some 400 ∧
    (do_DELETE (fun _ _ => true) [] [] "/api/delete/ab*defghijk").status ≠ 400 :=
  ⟨c9_glob_metacharacters.1 [] "/api/state/ab*defghijk" (.obj []) "ab*defghijk"
    (by decide) (by decide) (by decide),
   c9_glob_metacharacters.2.1 (fun _ _ => true) [] [] "/api/delete/ab*defghijk" "ab*defghijk"
    (by decide) (by decide) (by decide)⟩

/-- C10 counterexample: a JSON array body containing the string read is
not handled as claimed: indexing the list with the string key raises
TypeError, the handler crashes without reply, nothing is persisted. -/
theorem c10_counterexample :
    do_PATCH [] "/api/state/abcdefghijk" (.parsed (.arr [.str "read"])) = .crash [] ∧
    (do_PATCH [] "/api/state/abcdefghijk" (.parsed (.arr [.str "read"]))).statusOpt ≠
      some 200 := by
  constructor
  · decide
  · decide

/-- C10 amended: a JSON array body none of whose elements equals one of
the strings read, starred or archived is not rejected: the handler
proceeds as with no recognised keys, creates the all-false record if the
ID is absent, persists and replies 200; an array containing one of those
strings instead crashes the handler with a TypeError. -/
theorem c10_array_body (st : StateMap) (path vid : String) (xs : List JsonVal)
    (h1 : pyStartswith path "/api/state/" = true) (h2 : lastSegment path = vid)
    (h3 : vid.length = 11)
    (hx : ∀ x ∈ xs, jsonEqStr x "read" = false ∧ jsonEqStr x "starred" = false ∧
      jsonEqStr x "archived" = false) :
    do_PATCH st path (.parsed (.arr xs)) =
      .reply 200 (setRec st vid ((lookupRec st vid).getD ⟨false, false, false⟩))
        (some ((lookupRec st vid).getD ⟨false, false, false⟩)) := by
  rw [do_PATCH_valid st path _ vid h1 h2 h3]
  unfold patchCore
  rw [applyUpdates_arr_no_keys _ hx]

/-- C10 witness: an array of one number at a fresh ID yields 200 and the
default record. -/
theorem c10_witness :
    do_PATCH [] "/api/state/abcdefghijk" (.parsed (.arr [.num 5])) =
      .reply 200 [("abcdefghijk", ⟨false, false, false⟩)] (some ⟨false, false, false⟩) :=
  c10_array_body [] "/api/state/abcdefghijk" "abcdefghijk" [.num 5]
    (by decide) (by decide) (by decide) (by decide)

end YTV
